import Mathlib

set_option maxRecDepth 100000

/-!
# Shallow embedding of the hawkflow-go client

This file embeds the hawkflow-go HTTP client library (hawkflow.go,
validate functions, errors.go) in Lean 4 and proves properties of it.

Conventions of the embedding:
* Go `error` values become `Option String` (`none` = `nil`; `some msg` is an
  error whose `Error()` display text is `msg`).
* Go `len(s)` on a string counts UTF-8 bytes; `goLen` models that byte count.
* The injected `httpClient.Do` collaborator becomes a pure oracle
  `sender : Nat → doResult`, indexed by how many invocations happened before;
  functions thread an explicit invocation counter so that "the sender was
  invoked k times" is the arithmetic fact that the counter grew by `k`.
* `maxRetries` is a Go `uint8`; it is embedded as `Nat` and theorems that
  quantify over it restrict to `≤ 255`.
-/

namespace Hawkflow

/-- Models Go `len` of one rune when encoded in a UTF-8 string: the number of
bytes of the UTF-8 encoding of the code point (1, 2, 3 or 4 by the standard
ranges). -/
def charBytes (c : Char) : Nat :=
  if c.toNat ≤ 0x7F then 1
  else if c.toNat ≤ 0x7FF then 2
  else if c.toNat ≤ 0xFFFF then 3
  else 4

/-- Models Go `len(s)` for a string: its number of UTF-8 bytes. -/
def goLen (s : String) : Nat :=
  (s.data.map charBytes).sum

/-- One character of the class `[a-zA-Z0-9_-]` used by every charset regexp
in validate.go. -/
def isAllowedChar (c : Char) : Bool :=
  (97 ≤ c.toNat && c.toNat ≤ 122) ||
  (65 ≤ c.toNat && c.toNat ≤ 90) ||
  (48 ≤ c.toNat && c.toNat ≤ 57) ||
  c.toNat == 95 || c.toNat == 45

/-- Go `regexp.MatchString("^[a-zA-Z0-9_-]*$", s)`. -/
def matchCharsetStar (s : String) : Bool :=
  s.data.all isAllowedChar

/-- Go `regexp.MatchString("^[a-zA-Z0-9_-]+$", s)`. -/
def matchCharsetPlus (s : String) : Bool :=
  !s.data.isEmpty && s.data.all isAllowedChar

/-- errors.go `createError`: appends the fixed documentation suffix with
`fmt.Errorf("%s %s", msg, suffix)`. -/
def createError (msg : String) : String :=
  msg ++ " " ++ "Please see documentation at https://docs.hawkflow.ai/integration/index.html"

/-- A Go `float64` value, classified the way the only consumer of such
values in this client — `encoding/json` — distinguishes them: NaN, +Inf
and -Inf are unencodable, every finite value encodes. The finite payload
is carried along but never computed on (the program only renders it). -/
inductive float64 where
  | finite (val : Float)
  | nan
  | posInf
  | negInf

/-- The request payload struct of hawkflow.go with its JSON tags
`process`, `meta,omitempty`, `uid,omitempty`, `exception,omitempty`,
`items,omitempty`. The Go `map[string]float64` is embedded as an
association list. -/
structure request where
  process : String
  meta : String
  uid : String
  exceptionMessage : String
  items : List (String × float64)

/-- validate.go `validateApiKey`. -/
def validateApiKey (apiKey : String) : Option String :=
  if apiKey = "" then
    some (createError "No API Key set.")
  else if goLen apiKey > 50 then
    some (createError "Invalid API Key format.")
  else if !matchCharsetPlus apiKey then
    some (createError "Invalid API Key format.")
  else
    none

/-- validate.go `validateProcess`. -/
def validateProcess (process : String) : Option String :=
  if process = "" then
    some (createError "No process set.")
  else if goLen process > 250 then
    some (createError "Process parameter exceeded max length of 250 characters.")
  else if !matchCharsetPlus process then
    some (createError "Process parameter contains unsupported characters.")
  else
    none

/-- validate.go `validateMeta`. -/
def validateMeta (meta : String) : Option String :=
  if goLen meta > 500 then
    some (createError "Meta parameter exceeded max length of 500 characters.")
  else if !matchCharsetStar meta then
    some (createError "Meta parameter contains unsupported characters.")
  else
    none

/-- validate.go `validateUID`. -/
def validateUID (uid : String) : Option String :=
  if goLen uid > 50 then
    some (createError "UID parameter exceeded max length of 50 characters.")
  else if !matchCharsetStar uid then
    some (createError "UID parameter contains unsupported characters.")
  else
    none

/-- validate.go `validateExceptionMessage`. -/
def validateExceptionMessage (exceptionMessage : String) : Option String :=
  if goLen exceptionMessage > 15000 then
    some (createError "ExceptionMessage parameter exceeded max length of 15000 characters.")
  else
    none

/-- validate.go `validateMetricItems`. Go ranges over the map; the embedding
reports the first over-long key in list order. Only keys are inspected —
the float64 values are never looked at here. -/
def validateMetricItems (items : List (String × float64)) : Option String :=
  if items.length = 0 then
    some (createError "No items set.")
  else
    match items.find? (fun kv => goLen kv.1 > 50) with
    | some kv => some (createError ("Item key " ++ kv.1 ++ " exceeded max length of 50 characters."))
    | none => none

/-- validate.go `validateTime`: process, then meta, then uid, short-circuiting. -/
def validateTime (r : request) : Option String :=
  match validateProcess r.process with
  | some e => some e
  | none =>
    match validateMeta r.meta with
    | some e => some e
    | none =>
      match validateUID r.uid with
      | some e => some e
      | none => none

/-- validate.go `validateException`: process, then meta, then exception
message, short-circuiting. -/
def validateException (r : request) : Option String :=
  match validateProcess r.process with
  | some e => some e
  | none =>
    match validateMeta r.meta with
    | some e => some e
    | none =>
      match validateExceptionMessage r.exceptionMessage with
      | some e => some e
      | none => none

/-- validate.go `validateMetric`: process, then meta, then items,
short-circuiting. -/
def validateMetric (r : request) : Option String :=
  match validateProcess r.process with
  | some e => some e
  | none =>
    match validateMeta r.meta with
    | some e => some e
    | none =>
      match validateMetricItems r.items with
      | some e => some e
      | none => none

/-- Modelled from the spec: the body of `validateTimedData`, called by
`Start` and `End` in hawkflow.go, is not among the repository files at hand
(only its call sites are). Per the spec the validation order for timed
events is fixed: process, then meta, then uid, short-circuiting on the first
failure — the same chain as `validateTime` of the repository, whose error
messages the tests expect. -/
def validateTimedData (r : request) : Option String :=
  validateTime r

/-- Modelled from the spec: the body of `validateMetrics`, called by
`Metrics` in hawkflow.go, is not among the repository files at hand (only
its call site is). Per the spec the validation order for metric events is
fixed: process, then meta, then metric items, short-circuiting on the first
failure — the same chain as `validateMetric` of the repository, whose error
messages the tests expect. -/
def validateMetrics (r : request) : Option String :=
  validateMetric r

/-! ## JSON serialization (encoding/json with the struct tags of `request`) -/

/-- A JSON value, as far as the encoder of this client can produce one. -/
inductive Jval where
  | str (s : String)
  | num (x : float64)
  | obj (fields : List (String × Jval))

/-- `encoding/json` emits map entries in sorted key order. -/
def sortItems (items : List (String × float64)) : List (String × float64) :=
  items.insertionSort (fun a b => a.1 ≤ b.1)

/-- The `json.UnsupportedValueError` that `encoding/json` raises for one
float64 map value, when it raises one: finite values encode, NaN and the
infinities do not. -/
def floatEncodeError : float64 → Option String
  | float64.finite _ => none
  | float64.nan => some "json: unsupported value: NaN"
  | float64.posInf => some "json: unsupported value: +Inf"
  | float64.negInf => some "json: unsupported value: -Inf"

/-- First unencodable value of an items map, walked in the order the
encoder emits it. -/
def itemsEncodeError : List (String × float64) → Option String
  | [] => none
  | kv :: rest =>
    match floatEncodeError kv.2 with
    | some e => some e
    | none => itemsEncodeError rest

/-- Go `json.NewEncoder(body).Encode(r)` failure on the `request` struct.
The string fields always encode (Go marshals any string), so the only
failure is an unsupported float64 value among the metric items — values
that `validateMetricItems` never inspects. -/
def requestEncodeError (r : request) : Option String :=
  itemsEncodeError (sortItems r.items)

/-- Go `json.NewEncoder(body).Encode(r)` on the `request` struct when it
succeeds: an object whose keys appear in struct-field order, with every
`omitempty` field dropped at its zero value (empty string / empty map) and
map entries in sorted key order. The object is represented as its ordered
key-value list. -/
def encodeRequest (r : request) : List (String × Jval) :=
  [("process", Jval.str r.process)]
    ++ (if r.meta = "" then [] else [("meta", Jval.str r.meta)])
    ++ (if r.uid = "" then [] else [("uid", Jval.str r.uid)])
    ++ (if r.exceptionMessage = "" then [] else [("exception", Jval.str r.exceptionMessage)])
    ++ (if r.items.isEmpty then [] else
        [("items", Jval.obj ((sortItems r.items).map (fun kv => (kv.1, Jval.num kv.2))))])

/-- An ASCII control byte, which `net/url.Parse` rejects anywhere in a URL. -/
def isCtlByte (c : Char) : Bool :=
  c.toNat < 0x20 || c.toNat == 0x7F

/-- A hexadecimal digit, as accepted after `%` in a URL escape. -/
def isHexDigit (c : Char) : Bool :=
  (48 ≤ c.toNat && c.toNat ≤ 57) ||
  (65 ≤ c.toNat && c.toNat ≤ 70) ||
  (97 ≤ c.toNat && c.toNat ≤ 102)

/-- Every `%` in the string starts a valid two-hex-digit escape. -/
def validEscapes : List Char → Bool
  | [] => true
  | c :: a :: b :: rest =>
    if c.toNat == 37 then isHexDigit a && isHexDigit b && validEscapes rest
    else validEscapes (a :: b :: rest)
  | c :: rest => if c.toNat == 37 then false else validEscapes rest

/-- Models the failure of `http.NewRequest("POST", url, body)`, which for a
constant valid method fails exactly when `net/url.Parse` fails. With this
client, the URL is the fixed scheme-and-host endpoint plus a path suffix,
for which the stdlib parse fails on an ASCII control character anywhere or
a malformed percent-escape in the path or fragment. The escape check here
scans the whole string, over-approximating the failure set (Go leaves the
query unescaped at parse time): wherever this returns `none`, the Go call
succeeds. Messages follow the stdlib shape, abbreviating the quoted escape
sequence. -/
def newRequestError (u : String) : Option String :=
  if u.data.any isCtlByte then
    some ("parse \"" ++ u ++ "\": net/url: invalid control character in URL")
  else if !validEscapes u.data then
    some ("parse \"" ++ u ++ "\": invalid URL escape")
  else
    none

/-! ## The client and its transport -/

/-- Outcome of one `httpClient.Do` call: either a response (status code and
body) or a transport-level error. -/
inductive doResult where
  | response (statusCode : Nat) (body : String)
  | failure (err : String)

/-- The `client` struct of hawkflow.go. The `httpClient` and `logger`
capabilities are not stored: theorems pass the sender oracle explicitly and
`log` returns the emitted lines. -/
structure client where
  apiKey : String
  endpoint : String
  maxRetries : Nat
  debug : Bool

/-- hawkflow.go `OptionMaxRetries`. -/
def OptionMaxRetries (maxRetries : Nat) : client → client :=
  fun hfc => { hfc with maxRetries := maxRetries }

/-- hawkflow.go `OptionDebug`. -/
def OptionDebug (b : Bool) : client → client :=
  fun hfc => { hfc with debug := b }

/-- hawkflow.go `New`: stores the key verbatim (no validation at
construction), applies defaults, then the options in order. -/
def New (apiKey : String) (options : List (client → client)) : client :=
  options.foldl (fun hfc opt => opt hfc)
    { apiKey := apiKey
      endpoint := "https://api.hawkflow.ai/v1/"
      maxRetries := 3
      debug := false }

/-- hawkflow.go `client.log`: the list of strings handed to the logger sink
by one call. -/
def log (hfc : client) (m : String) : List String :=
  if hfc.debug then ["HF " ++ m ++ "\n"] else []

/-- hawkflow.go `client.send`, one attempt. Returns the Go pair
`(retry, err)` plus the sender-invocation counter after the call, checking
in source order: the API key, then JSON encoding of the payload (live for
NaN/Inf metric values), then `http.NewRequest` on `endpoint ++ path`, and
only then one `httpClient.Do` call. `sender calls` is the outcome
`httpClient.Do` produces for the `calls`-th invocation. -/
def send (hfc : client) (r : request) (path : String) (sender : Nat → doResult)
    (calls : Nat) : Bool × Option String × Nat :=
  match validateApiKey hfc.apiKey with
  | some e => (false, some e, calls)
  | none =>
    match requestEncodeError r with
    | some e => (false, some e, calls)
    | none =>
      match newRequestError (hfc.endpoint ++ path) with
      | some e => (false, some e, calls)
      | none =>
        match sender calls with
        | doResult.failure e => (true, some e, calls + 1)
        | doResult.response statusCode respBody =>
          if statusCode = 401 then (false, some respBody, calls + 1)
          else if statusCode ≠ 201 then (true, some respBody, calls + 1)
          else (false, none, calls + 1)

/-- hawkflow.go `client.sendWithRetry`: recursion on the remaining budget
`count` (a Go `uint8`; `0 >= count` is `count = 0` and `count-1` never
wraps). Returns the resulting error and the sender-invocation counter. -/
def sendWithRetry (hfc : client) (r : request) (path : String)
    (sender : Nat → doResult) (count : Nat) (calls : Nat) : Option String × Nat :=
  match count with
  | 0 => (some (createError "Connection failed permanently."), calls)
  | n + 1 =>
    match send hfc r path sender calls with
    | (retry, some e, calls2) =>
      if retry then sendWithRetry hfc r path sender n calls2 else (some e, calls2)
    | (_, none, calls2) => (none, calls2)

/-- hawkflow.go `client.Start`: build the payload, validate, then delegate
to `sendWithRetry` with path `start` and the configured budget. The second
component counts sender invocations. -/
def Start (hfc : client) (process meta uid : String)
    (sender : Nat → doResult) : Option String × Nat :=
  let r : request :=
    { process := process, meta := meta, uid := uid, exceptionMessage := "", items := [] }
  match validateTimedData r with
  | some e => (some e, 0)
  | none => sendWithRetry hfc r "start" sender hfc.maxRetries 0

/-- hawkflow.go `client.End`: like `Start` with path `end`. -/
def End (hfc : client) (process meta uid : String)
    (sender : Nat → doResult) : Option String × Nat :=
  let r : request :=
    { process := process, meta := meta, uid := uid, exceptionMessage := "", items := [] }
  match validateTimedData r with
  | some e => (some e, 0)
  | none => sendWithRetry hfc r "end" sender hfc.maxRetries 0

/-- hawkflow.go `client.Exception`. -/
def Exception (hfc : client) (process meta message : String)
    (sender : Nat → doResult) : Option String × Nat :=
  let r : request :=
    { process := process, meta := meta, uid := "", exceptionMessage := message, items := [] }
  match validateException r with
  | some e => (some e, 0)
  | none => sendWithRetry hfc r "exception" sender hfc.maxRetries 0

/-- hawkflow.go `client.Metrics`. -/
def Metrics (hfc : client) (process meta : String) (items : List (String × float64))
    (sender : Nat → doResult) : Option String × Nat :=
  let r : request :=
    { process := process, meta := meta, uid := "", exceptionMessage := "", items := items }
  match validateMetrics r with
  | some e => (some e, 0)
  | none => sendWithRetry hfc r "metrics" sender hfc.maxRetries 0

/-- Classification used by the retry loop: a sender outcome that makes one
attempt fail retryably (a transport failure, or any status other than 201
and 401). -/
def isRetryableOutcome : doResult → Bool
  | doResult.failure _ => true
  | doResult.response statusCode _ => statusCode ≠ 401 && statusCode ≠ 201

/-- A sender outcome carrying HTTP status 201 (Created). -/
def isSuccessOutcome : doResult → Bool
  | doResult.failure _ => false
  | doResult.response statusCode _ => statusCode = 201

/-! ## Helper lemmas -/

theorem charBytes_of_allowed (c : Char) (h : isAllowedChar c = true) :
    charBytes c = 1 := by
  simp only [isAllowedChar, Bool.or_eq_true, Bool.and_eq_true, decide_eq_true_eq,
    beq_iff_eq] at h
  have hle : c.toNat ≤ 0x7F := by omega
  simp [charBytes, hle]

theorem sum_charBytes_of_allowed (l : List Char) (h : l.all isAllowedChar = true) :
    (l.map charBytes).sum = l.length := by
  induction l with
  | nil => simp
  | cons c t ih =>
    simp only [List.all_cons, Bool.and_eq_true] at h
    simp [charBytes_of_allowed c h.1, ih h.2]
    omega

theorem goLen_eq_length_of_allowed (s : String) (h : s.data.all isAllowedChar = true) :
    goLen s = s.data.length := by
  unfold goLen
  exact sum_charBytes_of_allowed s.data h

theorem string_eq_empty_iff (s : String) : s = "" ↔ s.data = [] := by
  constructor
  · intro h
    subst h
    rfl
  · intro h
    cases s with
    | mk l =>
      simp only [String.data] at h
      subst h
      rfl

/-- With a valid API key, an encodable payload, a well-formed URL and a
sender answering HTTP 500 to every call, `sendWithRetry` consumes its whole
budget, invoking the sender once per unit of budget, and ends with the
permanent-failure error. -/
theorem sendWithRetry_all500 (hfc : client) (r : request) (path : String)
    (sender : Nat → doResult) (bodies : Nat → String)
    (hkey : validateApiKey hfc.apiKey = none)
    (henc : requestEncodeError r = none)
    (hurl : newRequestError (hfc.endpoint ++ path) = none)
    (hs : ∀ k, sender k = doResult.response 500 (bodies k)) :
    ∀ count calls, sendWithRetry hfc r path sender count calls =
      (some (createError "Connection failed permanently."), calls + count) := by
  intro count
  induction count with
  | zero =>
    intro calls
    simp [sendWithRetry]
  | succ n ih =>
    intro calls
    rw [sendWithRetry]
    simp only [send, hkey, henc, hurl, hs calls]
    norm_num
    rw [ih (calls + 1)]
    have harith : calls + 1 + n = calls + (n + 1) := by omega
    rw [harith]

/-! ## Claims -/

/-- C1: for every N (a `uint8` value), given a sender that answers HTTP
status 500 on every call, a valid API key and inputs passing validation,
each public operation (`Start`, `End`, `Exception`, `Metrics`) with
`maxRetries = N` invokes the sender exactly N times and returns the
"Connection failed permanently." error; in particular for N = 0 the sender
is never invoked and the error is returned immediately. -/
theorem C1_exhausted_budget_is_permanent_failure
    (hfc : client) (process meta uid message : String)
    (items : List (String × float64)) (sender : Nat → doResult)
    (bodies : Nat → String) (N : Nat)
    (hN : hfc.maxRetries = N) (hN255 : N ≤ 255)
    (hkey : validateApiKey hfc.apiKey = none)
    (hend : hfc.endpoint = "https://api.hawkflow.ai/v1/")
    (hs : ∀ k, sender k = doResult.response 500 (bodies k))
    (hv1 : validateTimedData ⟨process, meta, uid, "", []⟩ = none)
    (hv2 : validateException ⟨process, meta, "", message, []⟩ = none)
    (hv3 : validateMetrics ⟨process, meta, "", "", items⟩ = none)
    (hfin : requestEncodeError ⟨process, meta, "", "", items⟩ = none) :
    Start hfc process meta uid sender =
      (some (createError "Connection failed permanently."), N) ∧
    End hfc process meta uid sender =
      (some (createError "Connection failed permanently."), N) ∧
    Exception hfc process meta message sender =
      (some (createError "Connection failed permanently."), N) ∧
    Metrics hfc process meta items sender =
      (some (createError "Connection failed permanently."), N) := by
  have huS : newRequestError (hfc.endpoint ++ "start") = none := by
    rw [hend]; decide
  have huE : newRequestError (hfc.endpoint ++ "end") = none := by
    rw [hend]; decide
  have huX : newRequestError (hfc.endpoint ++ "exception") = none := by
    rw [hend]; decide
  have huM : newRequestError (hfc.endpoint ++ "metrics") = none := by
    rw [hend]; decide
  refine ⟨?_, ?_, ?_, ?_⟩
  · simp [Start, hv1, hN, sendWithRetry_all500 hfc ⟨process, meta, uid, "", []⟩
      "start" sender bodies hkey rfl huS hs]
  · simp [End, hv1, hN, sendWithRetry_all500 hfc ⟨process, meta, uid, "", []⟩
      "end" sender bodies hkey rfl huE hs]
  · simp [Exception, hv2, hN, sendWithRetry_all500 hfc ⟨process, meta, "", message, []⟩
      "exception" sender bodies hkey rfl huX hs]
  · simp [Metrics, hv3, hN, sendWithRetry_all500 hfc ⟨process, meta, "", "", items⟩
      "metrics" sender bodies hkey hfin huM hs]

/-- Witness for C1 at N = 2 and at N = 0. -/
theorem C1_exhausted_budget_is_permanent_failure_witness :
    Start (New "api_key" [OptionMaxRetries 2]) "test_process" "" ""
        (fun _ => doResult.response 500 "server error") =
      (some (createError "Connection failed permanently."), 2) ∧
    Start (New "api_key" [OptionMaxRetries 0]) "test_process" "" ""
        (fun _ => doResult.response 500 "server error") =
      (some (createError "Connection failed permanently."), 0) :=
  ⟨(C1_exhausted_budget_is_permanent_failure
      (New "api_key" [OptionMaxRetries 2]) "test_process" "" "" "boom"
      [("key", float64.finite 123)] (fun _ => doResult.response 500 "server error")
      (fun _ => "server error") 2 rfl (by decide) (by decide) rfl (fun _ => rfl)
      (by decide) (by decide) (by decide) rfl).1,
   (C1_exhausted_budget_is_permanent_failure
      (New "api_key" [OptionMaxRetries 0]) "test_process" "" "" "boom"
      [("key", float64.finite 123)] (fun _ => doResult.response 500 "server error")
      (fun _ => "server error") 0 rfl (by decide) (by decide) rfl (fun _ => rfl)
      (by decide) (by decide) (by decide) rfl).1⟩

/-- C2: when an attempt receives HTTP 401 Unauthorized, `sendWithRetry`
returns right away — exactly one more sender invocation happens — and the
error is exactly the response body, with no documentation-link suffix
appended. -/
theorem C2_unauthorized_stops_with_raw_body
    (hfc : client) (r : request) (path : String) (sender : Nat → doResult)
    (count calls : Nat) (respBody : String)
    (hkey : validateApiKey hfc.apiKey = none)
    (henc : requestEncodeError r = none)
    (hurl : newRequestError (hfc.endpoint ++ path) = none)
    (h401 : sender calls = doResult.response 401 respBody)
    (hcount : 1 ≤ count) :
    sendWithRetry hfc r path sender count calls = (some respBody, calls + 1) := by
  match count, hcount with
  | n + 1, _ =>
    rw [sendWithRetry]
    simp [send, hkey, henc, hurl, h401]

/-- Witness for C2: four attempts allowed, yet one 401 response ends it. -/
theorem C2_unauthorized_stops_with_raw_body_witness :
    sendWithRetry (New "api_key" []) ⟨"", "", "", "", []⟩ "exception"
        (fun _ => doResult.response 401 "unauthorized") 4 0 =
      (some "unauthorized", 1) :=
  C2_unauthorized_stops_with_raw_body (New "api_key" []) ⟨"", "", "", "", []⟩
    "exception" (fun _ => doResult.response 401 "unauthorized") 4 0
    "unauthorized" (by decide) rfl (by decide) rfl (by decide)

/-- C3: for each public operation, a failing validation chain makes the
operation return that error at once, with zero sender invocations. -/
theorem C3_validation_failure_short_circuits
    (hfc : client) (process meta uid message : String)
    (items : List (String × float64)) (sender : Nat → doResult) (e : String) :
    (validateTimedData ⟨process, meta, uid, "", []⟩ = some e →
      Start hfc process meta uid sender = (some e, 0)) ∧
    (validateTimedData ⟨process, meta, uid, "", []⟩ = some e →
      End hfc process meta uid sender = (some e, 0)) ∧
    (validateException ⟨process, meta, "", message, []⟩ = some e →
      Exception hfc process meta message sender = (some e, 0)) ∧
    (validateMetrics ⟨process, meta, "", "", items⟩ = some e →
      Metrics hfc process meta items sender = (some e, 0)) := by
  refine ⟨fun h => ?_, fun h => ?_, fun h => ?_, fun h => ?_⟩ <;>
    simp [Start, End, Exception, Metrics, h]

/-- Witness for C3: an empty process name stops `Start` with zero sends. -/
theorem C3_validation_failure_short_circuits_witness :
    Start (New "api_key" []) "" "" "" (fun _ => doResult.response 201 "") =
      (some (createError "No process set."), 0) :=
  (C3_validation_failure_short_circuits (New "api_key" []) "" "" "" "boom" []
      (fun _ => doResult.response 201 "") (createError "No process set.")).1
    (by decide)

/-- C4: `New` stores any key verbatim without validating it; the key is
validated inside `send`, which — for an empty key, an over-50-byte key, or
a key with a character outside `[a-zA-Z0-9_-]` — returns the missing-key or
invalid-format error with the non-retryable flag and an unchanged sender
invocation counter. -/
theorem C4_api_key_checked_lazily_in_send
    (key : String) (hfc : client) (r : request) (path : String)
    (sender : Nat → doResult) (calls : Nat) :
    (New key []).apiKey = key ∧
    (hfc.apiKey = "" →
      send hfc r path sender calls =
        (false, some (createError "No API Key set."), calls)) ∧
    (hfc.apiKey ≠ "" →
      (50 < goLen hfc.apiKey ∨ ∃ c ∈ hfc.apiKey.data, isAllowedChar c = false) →
      send hfc r path sender calls =
        (false, some (createError "Invalid API Key format."), calls)) := by
  refine ⟨rfl, fun h => ?_, fun hne hbad => ?_⟩
  · simp [send, validateApiKey, h]
  · rcases hbad with hlen | ⟨c, hc, hbadc⟩
    · simp [send, validateApiKey, hne, hlen]
    · by_cases hlen : 50 < goLen hfc.apiKey
      · simp [send, validateApiKey, hne, hlen]
      · have hall : hfc.apiKey.data.all isAllowedChar = false := by
          rw [List.all_eq_false]
          exact ⟨c, hc, by simp [hbadc]⟩
        simp [send, validateApiKey, hne, hlen, matchCharsetPlus, hall]

/-- Witness for C4: the key "invalid key !" fails inside `send` with the
invalid-format error and zero sender invocations; an empty key fails with
the missing-key error. -/
theorem C4_api_key_checked_lazily_in_send_witness :
    send (New "invalid key !" []) ⟨"t", "", "", "", []⟩ "start"
        (fun _ => doResult.response 201 "") 0 =
      (false, some (createError "Invalid API Key format."), 0) ∧
    send (New "" []) ⟨"t", "", "", "", []⟩ "start"
        (fun _ => doResult.response 201 "") 0 =
      (false, some (createError "No API Key set."), 0) :=
  ⟨(C4_api_key_checked_lazily_in_send "invalid key !" (New "invalid key !" [])
      ⟨"t", "", "", "", []⟩ "start" (fun _ => doResult.response 201 "") 0).2.2
      (by decide) (Or.inr ⟨' ', by decide, by decide⟩),
   (C4_api_key_checked_lazily_in_send "" (New "" [])
      ⟨"t", "", "", "", []⟩ "start" (fun _ => doResult.response 201 "") 0).2.1
      rfl⟩

/-- C8 counterexample: at the short message "Test message." the produced
display text does not carry a terminating period after the documentation
URL, refuting the claim as stated. -/
theorem C8_counterexample_no_terminating_period :
    createError "Test message." ≠
      "Test message." ++ " " ++ "Please see documentation at" ++ " " ++
        "https://docs.hawkflow.ai/integration/index.html" ++ "." := by
  decide

/-- C8 (amended): for every short message m, `createError m` is exactly m
followed by a space, the fixed text "Please see documentation at", a space
and the fixed documentation URL — with no terminating period. -/
theorem C8_createError_display_text (m : String) :
    createError m =
      m ++ " Please see documentation at https://docs.hawkflow.ai/integration/index.html" := by
  unfold createError
  rw [String.append_assoc]
  congr 1

/-- C9: `log` emits nothing when the debug flag is off, and exactly one
message "HF " ++ m ++ newline when it is on. -/
theorem C9_debug_gated_logging (hfc : client) (m : String) :
    (hfc.debug = false → log hfc m = []) ∧
    (hfc.debug = true → log hfc m = ["HF " ++ m ++ "\n"]) := by
  constructor <;> intro h <;> simp [log, h]

/-- Witness for C9 with the debug flag off and on. -/
theorem C9_debug_gated_logging_witness :
    log (New "api_key" []) "test log message" = [] ∧
    log (New "api_key" [OptionDebug true]) "test log message" =
      ["HF test log message\n"] :=
  ⟨(C9_debug_gated_logging (New "api_key" []) "test log message").1 rfl,
   (C9_debug_gated_logging (New "api_key" [OptionDebug true]) "test log message").2 rfl⟩

/-- With a valid API key, an attempt receiving HTTP 201 ends the retry loop
at once with a nil error. -/
theorem sendWithRetry_first201 (hfc : client) (r : request) (path : String)
    (sender : Nat → doResult) (count calls : Nat) (b : String)
    (hkey : validateApiKey hfc.apiKey = none)
    (henc : requestEncodeError r = none)
    (hurl : newRequestError (hfc.endpoint ++ path) = none)
    (h201 : sender calls = doResult.response 201 b)
    (hcount : 1 ≤ count) :
    sendWithRetry hfc r path sender count calls = (none, calls + 1) := by
  match count, hcount with
  | n + 1, _ =>
    rw [sendWithRetry]
    simp [send, hkey, henc, hurl, h201]

/-- With a valid API key, the retry loop ends with a nil error exactly when
one of the attempts inside the budget receives HTTP 201, every attempt
before it having failed retryably. -/
theorem sendWithRetry_none_iff (hfc : client) (r : request) (path : String)
    (sender : Nat → doResult)
    (hkey : validateApiKey hfc.apiKey = none)
    (henc : requestEncodeError r = none)
    (hurl : newRequestError (hfc.endpoint ++ path) = none) :
    ∀ count calls,
      ((sendWithRetry hfc r path sender count calls).1 = none ↔
        ∃ j, j < count ∧ isSuccessOutcome (sender (calls + j)) = true ∧
          ∀ i, i < j → isRetryableOutcome (sender (calls + i)) = true) := by
  intro count
  induction count with
  | zero =>
    intro calls
    simp [sendWithRetry]
  | succ n ih =>
    intro calls
    rw [sendWithRetry]
    have hshift : ∀ k, calls + 1 + k = calls + (k + 1) := by omega
    have hstep : ∀ e, send hfc r path sender calls = (true, some e, calls + 1) →
        isRetryableOutcome (sender calls) = true →
        ((sendWithRetry hfc r path sender n (calls + 1)).1 = none ↔
          ∃ j, j < n + 1 ∧ isSuccessOutcome (sender (calls + j)) = true ∧
            ∀ i, i < j → isRetryableOutcome (sender (calls + i)) = true) := by
      intro e _ hretry
      rw [ih (calls + 1)]
      constructor
      · rintro ⟨j, hj, hsucc, hpre⟩
        refine ⟨j + 1, by omega, by rw [← hshift]; exact hsucc, fun i hi => ?_⟩
        cases i with
        | zero => simpa using hretry
        | succ k => rw [← hshift]; exact hpre k (by omega)
      · rintro ⟨j, hj, hsucc, hpre⟩
        cases j with
        | zero =>
          have hnotsucc : isSuccessOutcome (sender calls) = false := by
            cases hr : sender calls with
            | failure e2 => simp [isSuccessOutcome]
            | response sc b =>
              simp only [hr, isRetryableOutcome, Bool.and_eq_true, decide_eq_true_eq,
                bne_iff_ne, ne_eq] at hretry
              simp [isSuccessOutcome, hretry.2]
          simp [hnotsucc] at hsucc
        | succ k =>
          refine ⟨k, by omega, by rw [hshift]; exact hsucc, fun i hi => ?_⟩
          rw [hshift]
          exact hpre (i + 1) (by omega)
    cases hres : sender calls with
    | failure e =>
      have hsend : send hfc r path sender calls = (true, some e, calls + 1) := by
        simp [send, hkey, henc, hurl, hres]
      rw [hsend]
      show (sendWithRetry hfc r path sender n (calls + 1)).1 = none ↔ _
      exact hstep e hsend (by simp [hres, isRetryableOutcome])
    | response statusCode respBody =>
      by_cases h401 : statusCode = 401
      · subst h401
        have hsend : send hfc r path sender calls = (false, some respBody, calls + 1) := by
          simp [send, hkey, henc, hurl, hres]
        rw [hsend]
        show (some respBody : Option String) = none ↔ _
        refine iff_of_false (by simp) ?_
        rintro ⟨j, hj, hsucc, hpre⟩
        cases j with
        | zero => simp [hres, isSuccessOutcome] at hsucc
        | succ k =>
          have h0 := hpre 0 (by omega)
          simp [hres, isRetryableOutcome] at h0
      · by_cases h201 : statusCode = 201
        · subst h201
          have hsend : send hfc r path sender calls = (false, none, calls + 1) := by
            simp [send, hkey, henc, hurl, hres]
          rw [hsend]
          show (none : Option String) = none ↔ _
          refine iff_of_true rfl ?_
          exact ⟨0, by omega, by simp [hres, isSuccessOutcome], fun i hi => by omega⟩
        · have hsend : send hfc r path sender calls = (true, some respBody, calls + 1) := by
            simp [send, hkey, henc, hurl, hres, h401, h201]
          rw [hsend]
          show (sendWithRetry hfc r path sender n (calls + 1)).1 = none ↔ _
          exact hstep respBody hsend (by simp [hres, isRetryableOutcome, h401, h201])

/-- C5: with valid inputs, a valid API key and a budget of at least one,
a sender answering HTTP 201 on the first call makes each of `Start`, `End`,
`Exception` and `Metrics` invoke the sender exactly once and return nil;
and in general a nil result occurs exactly when some attempt within the
budget received status 201 (every attempt before it having failed
retryably). -/
theorem C5_nil_iff_some_attempt_got_201
    (hfc : client) (process meta uid message : String)
    (items : List (String × float64)) (sender : Nat → doResult) (b : String)
    (hkey : validateApiKey hfc.apiKey = none)
    (hend : hfc.endpoint = "https://api.hawkflow.ai/v1/")
    (hv1 : validateTimedData ⟨process, meta, uid, "", []⟩ = none)
    (hv2 : validateException ⟨process, meta, "", message, []⟩ = none)
    (hv3 : validateMetrics ⟨process, meta, "", "", items⟩ = none)
    (hfin : requestEncodeError ⟨process, meta, "", "", items⟩ = none) :
    (sender 0 = doResult.response 201 b → 1 ≤ hfc.maxRetries →
      Start hfc process meta uid sender = (none, 1) ∧
      End hfc process meta uid sender = (none, 1) ∧
      Exception hfc process meta message sender = (none, 1) ∧
      Metrics hfc process meta items sender = (none, 1)) ∧
    ((Start hfc process meta uid sender).1 = none ↔
      ∃ j, j < hfc.maxRetries ∧ isSuccessOutcome (sender j) = true ∧
        ∀ i, i < j → isRetryableOutcome (sender i) = true) ∧
    ((End hfc process meta uid sender).1 = none ↔
      ∃ j, j < hfc.maxRetries ∧ isSuccessOutcome (sender j) = true ∧
        ∀ i, i < j → isRetryableOutcome (sender i) = true) ∧
    ((Exception hfc process meta message sender).1 = none ↔
      ∃ j, j < hfc.maxRetries ∧ isSuccessOutcome (sender j) = true ∧
        ∀ i, i < j → isRetryableOutcome (sender i) = true) ∧
    ((Metrics hfc process meta items sender).1 = none ↔
      ∃ j, j < hfc.maxRetries ∧ isSuccessOutcome (sender j) = true ∧
        ∀ i, i < j → isRetryableOutcome (sender i) = true) := by
  have huS : newRequestError (hfc.endpoint ++ "start") = none := by
    rw [hend]; decide
  have huE : newRequestError (hfc.endpoint ++ "end") = none := by
    rw [hend]; decide
  have huX : newRequestError (hfc.endpoint ++ "exception") = none := by
    rw [hend]; decide
  have huM : newRequestError (hfc.endpoint ++ "metrics") = none := by
    rw [hend]; decide
  refine ⟨fun h201 hmr => ?_, ?_, ?_, ?_, ?_⟩
  · refine ⟨?_, ?_, ?_, ?_⟩
    · simp [Start, hv1, sendWithRetry_first201 hfc ⟨process, meta, uid, "", []⟩
        "start" sender hfc.maxRetries 0 b hkey rfl huS h201 hmr]
    · simp [End, hv1, sendWithRetry_first201 hfc ⟨process, meta, uid, "", []⟩
        "end" sender hfc.maxRetries 0 b hkey rfl huE h201 hmr]
    · simp [Exception, hv2, sendWithRetry_first201 hfc ⟨process, meta, "", message, []⟩
        "exception" sender hfc.maxRetries 0 b hkey rfl huX h201 hmr]
    · simp [Metrics, hv3, sendWithRetry_first201 hfc ⟨process, meta, "", "", items⟩
        "metrics" sender hfc.maxRetries 0 b hkey hfin huM h201 hmr]
  · simp only [Start, hv1]
    simpa using sendWithRetry_none_iff hfc ⟨process, meta, uid, "", []⟩ "start"
      sender hkey rfl huS hfc.maxRetries 0
  · simp only [End, hv1]
    simpa using sendWithRetry_none_iff hfc ⟨process, meta, uid, "", []⟩ "end"
      sender hkey rfl huE hfc.maxRetries 0
  · simp only [Exception, hv2]
    simpa using sendWithRetry_none_iff hfc ⟨process, meta, "", message, []⟩ "exception"
      sender hkey rfl huX hfc.maxRetries 0
  · simp only [Metrics, hv3]
    simpa using sendWithRetry_none_iff hfc ⟨process, meta, "", "", items⟩ "metrics"
      sender hkey hfin huM hfc.maxRetries 0

/-- Witness for C5: with the default budget of 3 and a sender that answers
201 at once, `Start` performs exactly one send and returns no error. -/
theorem C5_nil_iff_some_attempt_got_201_witness :
    Start (New "api_key" []) "test_process" "" ""
        (fun _ => doResult.response 201 "created") = (none, 1) :=
  ((C5_nil_iff_some_attempt_got_201 (New "api_key" []) "test_process" "" "" "boom"
      [("key", float64.finite 123)] (fun _ => doResult.response 201 "created") "created"
      (by decide) rfl (by decide) (by decide) (by decide) rfl).1 rfl (by decide)).1

/-- C6: `validateProcess` passes exactly on the strings matching
`[a-zA-Z0-9_-]` repeated 1 to 250 times, fails empty strings with the
empty-process error, over-250-byte strings with the too-long error, and
otherwise strings holding a disallowed character with the
invalid-characters error. -/
theorem C6_validateProcess_classification (s : String) :
    (validateProcess s = none ↔
      (1 ≤ s.data.length ∧ s.data.length ≤ 250 ∧ s.data.all isAllowedChar = true)) ∧
    (s = "" → validateProcess s = some (createError "No process set.")) ∧
    (s ≠ "" → 250 < goLen s →
      validateProcess s =
        some (createError "Process parameter exceeded max length of 250 characters.")) ∧
    (s ≠ "" → goLen s ≤ 250 → (∃ c ∈ s.data, isAllowedChar c = false) →
      validateProcess s =
        some (createError "Process parameter contains unsupported characters.")) := by
  refine ⟨⟨?_, ?_⟩, fun h => ?_, fun hne hlen => ?_, fun hne hlen hbad => ?_⟩
  · intro h
    by_cases h1 : s = ""
    · simp [validateProcess, h1] at h
    by_cases h2 : goLen s > 250
    · simp [validateProcess, h1, h2] at h
    by_cases h3 : matchCharsetPlus s = true
    · have hdata : ¬s.data.isEmpty ∧ s.data.all isAllowedChar = true := by
        simpa [matchCharsetPlus] using h3
      have hlen : goLen s = s.data.length := goLen_eq_length_of_allowed s hdata.2
      have hpos : 1 ≤ s.data.length := by
        cases hd : s.data with
        | nil => simp [hd] at hdata
        | cons a t => simp
      exact ⟨hpos, by omega, hdata.2⟩
    · simp [validateProcess, h1, h2, h3] at h
  · rintro ⟨hge, hle, hall⟩
    have hne : s ≠ "" := by
      intro h
      rw [string_eq_empty_iff] at h
      simp [h] at hge
    have hlen : goLen s = s.data.length := goLen_eq_length_of_allowed s hall
    have hplus : matchCharsetPlus s = true := by
      simp only [matchCharsetPlus, Bool.and_eq_true, Bool.not_eq_true']
      refine ⟨?_, hall⟩
      cases hd : s.data with
      | nil => simp [hd] at hge
      | cons a t => simp
    have hnl : ¬goLen s > 250 := by omega
    simp [validateProcess, hne, hnl, hplus]
  · simp [validateProcess, h]
  · simp [validateProcess, hne, hlen]
  · have hall : s.data.all isAllowedChar = false := by
      rw [List.all_eq_false]
      obtain ⟨c, hc, hcb⟩ := hbad
      exact ⟨c, hc, by simp [hcb]⟩
    have hnl : ¬goLen s > 250 := by omega
    simp [validateProcess, hne, hnl, matchCharsetPlus, hall]

/-- Witness for C6: one string per classification branch. -/
theorem C6_validateProcess_classification_witness :
    validateProcess "valid_process-1" = none ∧
    validateProcess "" = some (createError "No process set.") ∧
    validateProcess (String.mk (List.replicate 251 'a')) =
      some (createError "Process parameter exceeded max length of 250 characters.") ∧
    validateProcess "bad process!" =
      some (createError "Process parameter contains unsupported characters.") :=
  ⟨(C6_validateProcess_classification "valid_process-1").1.mpr (by decide),
   (C6_validateProcess_classification "").2.1 rfl,
   (C6_validateProcess_classification (String.mk (List.replicate 251 'a'))).2.2.1
     (by decide) (by decide),
   (C6_validateProcess_classification "bad process!").2.2.2
     (by decide) (by decide) ⟨' ', by decide, by decide⟩⟩

/-- C7: the payload built from process "p", meta "m", uid "u" serializes to
an object with exactly the keys process, meta, uid carrying those values,
and every empty optional field (meta, uid, exception message, items) is
omitted from any serialized body. -/
theorem C7_serialization_omits_empty_fields :
    encodeRequest ⟨"p", "m", "u", "", []⟩ =
      [("process", Jval.str "p"), ("meta", Jval.str "m"), ("uid", Jval.str "u")] ∧
    ∀ r : request,
      (r.meta = "" → "meta" ∉ (encodeRequest r).map Prod.fst) ∧
      (r.uid = "" → "uid" ∉ (encodeRequest r).map Prod.fst) ∧
      (r.exceptionMessage = "" → "exception" ∉ (encodeRequest r).map Prod.fst) ∧
      (r.items = [] → "items" ∉ (encodeRequest r).map Prod.fst) := by
  refine ⟨rfl, fun r => ⟨fun h => ?_, fun h => ?_, fun h => ?_, fun h => ?_⟩⟩ <;>
  · simp only [encodeRequest, h, if_pos, List.isEmpty_nil]
    simp only [List.map_append, List.mem_append]
    split_ifs <;> simp

/-- Witness for C7: the exception and items keys are absent from the
serialized "p"/"m"/"u" payload. -/
theorem C7_serialization_omits_empty_fields_witness :
    "exception" ∉ (encodeRequest ⟨"p", "m", "u", "", []⟩).map Prod.fst ∧
    "items" ∉ (encodeRequest ⟨"p", "m", "u", "", []⟩).map Prod.fst :=
  ⟨(C7_serialization_omits_empty_fields.2 ⟨"p", "m", "u", "", []⟩).2.2.1 rfl,
   (C7_serialization_omits_empty_fields.2 ⟨"p", "m", "u", "", []⟩).2.2.2 rfl⟩

/-- C10: in every string validator the emptiness check (where present)
precedes the byte-length check, which precedes the charset check: an
over-limit string yields the too-long error no matter what characters it
holds, and the limits count UTF-8 bytes — a string within the limit in
characters but over it in bytes is rejected as too long. -/
theorem C10_length_before_charset_and_bytes_counted (s : String) :
    (s ≠ "" → 250 < goLen s →
      validateProcess s =
        some (createError "Process parameter exceeded max length of 250 characters.")) ∧
    (500 < goLen s →
      validateMeta s =
        some (createError "Meta parameter exceeded max length of 500 characters.")) ∧
    (50 < goLen s →
      validateUID s =
        some (createError "UID parameter exceeded max length of 50 characters.")) ∧
    (s ≠ "" → 50 < goLen s →
      validateApiKey s = some (createError "Invalid API Key format.")) ∧
    (s = "" → validateProcess s = some (createError "No process set.")) ∧
    (s = "" → validateApiKey s = some (createError "No API Key set.")) ∧
    (s.data.length ≤ 250 → 250 < goLen s →
      validateProcess s =
        some (createError "Process parameter exceeded max length of 250 characters.")) := by
  refine ⟨fun hne hl => ?_, fun hl => ?_, fun hl => ?_, fun hne hl => ?_,
    fun h => ?_, fun h => ?_, fun hchars hl => ?_⟩
  · simp [validateProcess, hne, hl]
  · simp [validateMeta, hl]
  · simp [validateUID, hl]
  · simp [validateApiKey, hne, hl]
  · simp [validateProcess, h]
  · simp [validateApiKey, h]
  · have hne : s ≠ "" := by
      intro h
      rw [string_eq_empty_iff] at h
      simp [goLen, h] at hl
    simp [validateProcess, hne, hl]

/-- Witness for C10: two hundred three-byte crosses pass the character
limits (200 ≤ 250) but fail the byte limits (600 bytes), and the empty
API key takes the emptiness branch. -/
theorem C10_length_before_charset_and_bytes_counted_witness :
    validateProcess (String.mk (List.replicate 200 '❌')) =
      some (createError "Process parameter exceeded max length of 250 characters.") ∧
    validateMeta (String.mk (List.replicate 200 '❌')) =
      some (createError "Meta parameter exceeded max length of 500 characters.") ∧
    validateApiKey "" = some (createError "No API Key set.") :=
  ⟨(C10_length_before_charset_and_bytes_counted
      (String.mk (List.replicate 200 '❌'))).2.2.2.2.2.2 (by decide) (by decide),
   (C10_length_before_charset_and_bytes_counted
      (String.mk (List.replicate 200 '❌'))).2.1 (by decide),
   (C10_length_before_charset_and_bytes_counted "").2.2.2.2.2.1 rfl⟩

end Hawkflow
